import Mathlib

/-!
# Verification of the mailwebhook-mcp transport/session core

Shallow embedding of the TypeScript sources of the mailwebhook-mcp gateway
(rate limiter, cache manager, auth manager, session manager, backend HTTP
client, SSE transport, streamable-HTTP JSON-RPC handler), together with
theorems settling the specification claims about them.

Conventions of the embedding:
* `Date.now()` timestamps are `Nat` milliseconds, passed explicitly.
* JavaScript `Map` objects become association lists in insertion order
  (`jsMapGet` / `jsMapSet` / `jsMapDelete` mirror `get` / `set` / `delete`).
* A JavaScript value that may be `undefined` becomes an `Option`.
* JSON values are the inductive `JVal`; the JS `null` is `JVal.jnull`.
* Machine numbers are modelled as `Nat`/`Int`; where the source multiplies by
  the double constants `0.8` / `0.3` / `0.1` and floors, the embedding uses the
  exact rational computation (`n*4/5`, `n*3/10`, `n/10`), which agrees with the
  IEEE-754 evaluation for all inputs in the realistic range (the relative
  error of the rounded constants is below half an ulp of the products there).
-/

/-- JSON values (the JS values that travel through `JSON.stringify`/`json()`).
`jnull` doubles as the JS `null`. -/
inductive JVal where
  | jnull : JVal
  | jbool (b : Bool) : JVal
  | jnum (n : Int) : JVal
  | jstr (s : String) : JVal
  | jarr (elems : List JVal) : JVal
  | jobj (fields : List (String × JVal)) : JVal

/-- The JS check `x === null`. -/
def JVal.isNull : JVal → Bool
  | .jnull => true
  | _ => false

/-- JS truthiness of a `JVal` (`null`, `false`, `0`, `""` are falsy;
arrays and objects are always truthy). -/
def JVal.truthy : JVal → Bool
  | .jnull => false
  | .jbool b => b
  | .jnum n => n != 0
  | .jstr s => s != ""
  | .jarr _ => true
  | .jobj _ => true

/-- Truthiness of a possibly-`undefined` JS value. -/
def jsTruthy : Option JVal → Bool
  | none => false
  | some v => v.truthy

/-- Truthiness test of a possibly-`undefined` JS string
(`undefined` and `""` are falsy). -/
def jsFalsyStr : Option String → Bool
  | none => true
  | some s => s == ""

/-- The JS `a || b` idiom on strings: `b` when `a` is absent or empty. -/
def jsOrStr (a : Option String) (b : String) : String :=
  match a with
  | some s => if s == "" then b else s
  | none => b

/-- JS property access `o?.k` on a JSON value: `undefined` unless `o` is an
object carrying the field. -/
def jsGetField (o : Option JVal) (k : String) : Option JVal :=
  match o with
  | some (.jobj fields) => (fields.find? (fun f => f.1 == k)).map (fun f => f.2)
  | _ => none

/-- Substring search on character lists. -/
def hasSubList (p : List Char) : List Char → Bool
  | [] => p.isEmpty
  | c :: rest => p.isPrefixOf (c :: rest) || hasSubList p rest

/-- `String.prototype.includes(pat)`. -/
def strContains (s pat : String) : Bool :=
  hasSubList pat.toList s.toList

/-- `Map.prototype.get`. -/
def jsMapGet {β : Type} (m : List (String × β)) (k : String) : Option β :=
  (m.find? (fun p => p.1 == k)).map (fun p => p.2)

/-- `Map.prototype.set`: replaces in place if the key exists, otherwise
appends (JS maps iterate in insertion order). -/
def jsMapSet {β : Type} (m : List (String × β)) (k : String) (v : β) :
    List (String × β) :=
  if (m.find? (fun p => p.1 == k)).isSome then
    m.map (fun p => if p.1 == k then (k, v) else p)
  else
    m ++ [(k, v)]

/-- `Map.prototype.delete`. -/
def jsMapDelete {β : Type} (m : List (String × β)) (k : String) :
    List (String × β) :=
  m.filter (fun p => p.1 != k)

/-- `Math.ceil(x / 1000)` for a `Nat` millisecond quantity. -/
def ceilDiv1000 (x : Nat) : Nat := (x + 999) / 1000

namespace RateLimiter

/-- `RateLimitConfig` (src/types.ts). -/
structure RateLimitConfig where
  enabled : Bool
  windowMs : Nat
  maxRequests : Nat
  skipSuccessfulRequests : Bool
deriving DecidableEq

/-- `RateLimitRecord` (src/types.ts). -/
structure RateLimitRecord where
  count : Nat
  resetTime : Nat
  blocked : Bool
deriving DecidableEq

/-- The mutable state of a `RateLimiter` instance: its config and its
`records` map. -/
structure RLState where
  config : RateLimitConfig
  records : List (String × RateLimitRecord)
deriving DecidableEq

/-- Result of `isRateLimited` (`{limited, record, retryAfter?}`). -/
structure RLCheckResult where
  limited : Bool
  record : RateLimitRecord
  retryAfter : Option Nat
deriving DecidableEq

/-- `RateLimiter.generateKey`. -/
def generateKey (clientId : String) (endpoint : Option String) : String :=
  match endpoint with
  | some e => clientId ++ ":" ++ e
  | none => clientId

/-- `RateLimiter.isRateLimited` (src/utils/rateLimiter.ts lines 23-70).
Returns the result together with the updated state. -/
def isRateLimited (st : RLState) (clientId : String) (endpoint : Option String)
    (now : Nat) : RLCheckResult × RLState :=
  if !st.config.enabled then
    ({ limited := false, record := ⟨0, 0, false⟩, retryAfter := none }, st)
  else
    let key := generateKey clientId endpoint
    let record :=
      match jsMapGet st.records key with
      | some r =>
        if now ≥ r.resetTime then
          (⟨0, now + st.config.windowMs, false⟩ : RateLimitRecord)
        else r
      | none => ⟨0, now + st.config.windowMs, false⟩
    let record := { record with count := record.count + 1 }
    if record.count > st.config.maxRequests then
      let record := { record with blocked := true }
      ({ limited := true, record := record
         retryAfter := some (ceilDiv1000 (record.resetTime - now)) },
       { st with records := jsMapSet st.records key record })
    else
      ({ limited := false, record := record, retryAfter := none },
       { st with records := jsMapSet st.records key record })

/-- A sequence of `isRateLimited` checks for one client/endpoint at the given
times, threading the state. -/
def isRateLimitedSeq (st : RLState) (clientId : String)
    (endpoint : Option String) : List Nat → List RLCheckResult × RLState
  | [] => ([], st)
  | t :: ts =>
    let r := isRateLimited st clientId endpoint t
    let rest := isRateLimitedSeq r.2 clientId endpoint ts
    (r.1 :: rest.1, rest.2)

/-- `Partial<RateLimitConfig>` as produced by `getEndpointConfig`. -/
structure RLConfigOverride where
  maxRequests : Option Nat
  windowMs : Option Nat
deriving DecidableEq

/-- `RateLimiter.getEndpointConfig` (src/utils/rateLimiter.ts lines 128-146).
`Math.floor(max/6)`, `Math.floor(max*0.8)`, `Math.floor(max*0.3)` are the
exact rational floors (see the header note on IEEE-754 agreement). -/
def getEndpointConfig (cfg : RateLimitConfig) (endpoint : String) :
    RLConfigOverride :=
  if endpoint == "/admin" then
    ⟨some (cfg.maxRequests / 6), some cfg.windowMs⟩
  else if endpoint == "/mcp/tools/call" then
    ⟨some (cfg.maxRequests * 4 / 5), some cfg.windowMs⟩
  else if endpoint == "/mcp/tools" then
    ⟨some (cfg.maxRequests * 3 / 10), some cfg.windowMs⟩
  else ⟨none, none⟩

/-- `Object.assign(this.config, endpointConfig)`: fields present in the
override replace the base config fields. -/
def applyOverride (cfg : RateLimitConfig) (ov : RLConfigOverride) :
    RateLimitConfig :=
  { cfg with
    maxRequests := ov.maxRequests.getD cfg.maxRequests
    windowMs := ov.windowMs.getD cfg.windowMs }

/-- The configuration the inner `isRateLimited` call observes during
`isRateLimitedByEndpoint`: the base config with the endpoint override
`Object.assign`-ed onto it. -/
def configDuringEndpointCheck (st : RLState) (endpoint : String) :
    RateLimitConfig :=
  applyOverride st.config (getEndpointConfig st.config endpoint)

/-- `RateLimiter.isRateLimitedByEndpoint` (src/utils/rateLimiter.ts lines
149-166): temporarily applies the endpoint override to the shared config,
runs the check, then restores the original config. -/
def isRateLimitedByEndpoint (st : RLState) (clientId endpoint : String)
    (now : Nat) : RLCheckResult × RLState :=
  let res := isRateLimited { st with config := configDuringEndpointCheck st endpoint }
    clientId (some endpoint) now
  (res.1, { res.2 with config := st.config })

/-- Modelled from the spec (design note §9): the pure derived configuration
`effectiveConfig(baseConfig, endpoint)` — administrative path scales the max
by 1/6, tool invocation by 0.8, tool listing by 0.3, otherwise the base max —
used as the refinement reference for claim C3. -/
def effectiveConfigSpec (base : RateLimitConfig) (endpoint : String) :
    RateLimitConfig :=
  if endpoint == "/admin" then
    { base with maxRequests := base.maxRequests / 6 }
  else if endpoint == "/mcp/tools/call" then
    { base with maxRequests := base.maxRequests * 4 / 5 }
  else if endpoint == "/mcp/tools" then
    { base with maxRequests := base.maxRequests * 3 / 10 }
  else base

end RateLimiter

namespace CacheMgr

/-- `CacheConfig` (src/types.ts): TTLs are in seconds (they become
`Cache-Control: max-age=...` headers). -/
structure CacheConfig where
  enabled : Bool
  defaultTtl : Nat
  maxAge : Nat
  staleWhileRevalidate : Option Nat

/-- One stored cache entry: the JSON payload, the `Date` header written by
`set` (milliseconds, truncated to whole seconds because `toUTCString` has
second resolution), and the `max-age` value in seconds. -/
structure CacheEntry where
  body : JVal
  dateMs : Nat
  maxAge : Nat
  swr : Option Nat

/-- The state of a `CacheManager` instance: its config, key namespace and
the backing cache contents. -/
structure CacheState where
  config : CacheConfig
  keyPref : String
  entries : List (String × CacheEntry)

/-- `CacheManager.generateCacheKey` with no `CacheKeyOptions` (the path the
claims exercise): `prefix:v1:key`. -/
def cacheKeyOf (st : CacheState) (key : String) : String :=
  st.keyPref ++ ":v1:" ++ key

/-- `CacheManager.delete` (src/utils/auth.ts lines 291-306). -/
def cacheDelete (st : CacheState) (key : String) : Bool × CacheState :=
  let ck := cacheKeyOf st key
  ((jsMapGet st.entries ck).isSome,
   { st with entries := jsMapDelete st.entries ck })

/-- `CacheManager.get` (src/utils/auth.ts lines 204-239). Returns the JSON
payload, with `JVal.jnull` standing for the JS `null` returned on a miss;
an entry whose age `(now - Date)/1000` exceeds its `max-age` is deleted and
reported as a miss. -/
def cacheGet (st : CacheState) (key : String) (now : Nat) : JVal × CacheState :=
  if !st.config.enabled then (JVal.jnull, st)
  else
    let ck := cacheKeyOf st key
    match jsMapGet st.entries ck with
    | none => (JVal.jnull, st)
    | some e =>
      if e.maxAge * 1000 < now - e.dateMs then
        (JVal.jnull, (cacheDelete st key).2)
      else
        (e.body, st)

/-- `CacheManager.set` (src/utils/auth.ts lines 242-288): `ttl || defaultTtl`
seconds become the `max-age`; the `Date` header records the write time at
second resolution. -/
def cacheSet (st : CacheState) (key : String) (data : JVal) (ttl : Option Nat)
    (now : Nat) : Bool × CacheState :=
  if !st.config.enabled then (false, st)
  else
    let cacheTtl :=
      match ttl with
      | some t => if t == 0 then st.config.defaultTtl else t
      | none => st.config.defaultTtl
    let entry : CacheEntry :=
      { body := data, dateMs := now - now % 1000, maxAge := cacheTtl
        swr := st.config.staleWhileRevalidate }
    (true, { st with entries := jsMapSet st.entries (cacheKeyOf st key) entry })

/-- Result of one `getOrSet` call: the returned payload, the new cache state,
and how many times the fetch function was invoked (0 or 1). -/
structure GetOrSetOut where
  value : JVal
  st : CacheState
  fetches : Nat

/-- `CacheManager.getOrSet` (src/utils/auth.ts lines 309-328). The fetch
function is modelled by the value it resolves to. The `cached !== null` test
makes a stored JSON `null` indistinguishable from a miss. -/
def getOrSet (st : CacheState) (key : String) (fetchVal : JVal)
    (ttl : Option Nat) (now : Nat) : GetOrSetOut :=
  let g := cacheGet st key now
  if !g.1.isNull then
    { value := g.1, st := g.2, fetches := 0 }
  else
    let s := cacheSet g.2 key fetchVal ttl now
    { value := fetchVal, st := s.2, fetches := 1 }

end CacheMgr

namespace AuthMgr

/-- The fields of `Env` that `AuthManager.verifyApiToken` reads; `none`
models an unset environment variable. -/
structure AuthEnv where
  MCP_API_TOKEN : Option String
deriving DecidableEq

/-- `AuthManager.verifyApiToken` (src/utils/auth.ts lines 12-26): fails when
`MCP_API_TOKEN` is unset or empty, fails on a missing/empty token, strips a
`Bearer ` prefix, then compares. -/
def verifyApiToken (env : AuthEnv) (token : Option String) : Bool :=
  if jsFalsyStr env.MCP_API_TOKEN then false
  else if jsFalsyStr token then false
  else
    let t := token.getD ""
    let cleanToken := if t.startsWith ("Bearer ") then t.drop 7 else t
    cleanToken == env.MCP_API_TOKEN.getD ""

end AuthMgr

namespace HttpClient

/-- The fields of the parsed backend response body (`ApiResponse`) that
`makeRequest` reads when building an error; the success payload itself is
irrelevant to the retry logic and not modelled. -/
structure ApiResult where
  message : Option String
  error : Option String
  details : Option String
deriving DecidableEq

/-- A JS exception as seen by `isRetryableError`: its `name` and `message`. -/
structure JsError where
  name : String
  message : String
deriving DecidableEq

/-- Outcome of one underlying fetch attempt (service binding or HTTP API):
a response with a status and parsed body, an `AbortError` (timeout or client
abort), or a network-level error. -/
inductive FetchOutcome where
  | resp (status : Nat) (result : ApiResult)
  | abort
  | netErr (msg : String)
deriving DecidableEq

/-- The error message `makeRequest` throws for a non-ok response:
`` `${sb ? 'Service' : 'HTTP'} ${status}: ${message || error || 'Unknown
error'}${details ? ' - ' + details : ''}` `` (src/unnamed/part_001 lines
54-58). -/
def mkErrMsg (useServiceBinding : Bool) (status : Nat) (r : ApiResult) :
    String :=
  (if useServiceBinding then "Service " else "HTTP ") ++ toString status
    ++ ": " ++ jsOrStr r.message (jsOrStr r.error ("Unknown error"))
    ++ (match r.details with
        | some d => if d == "" then "" else " - " ++ d
        | none => "")

/-- `HttpClient.isRetryableError` (src/unnamed/part_001 lines 142-146):
`AbortError` and messages containing `'HTTP 4'` are not retryable. -/
def isRetryableError (e : JsError) : Bool :=
  if e.name == "AbortError" then false
  else if strContains e.message ("HTTP 4") then false
  else true

deriving instance DecidableEq for Except

/-- One attempt of `makeRequest` up to the `response.ok` check: an ok
response returns the parsed body, a non-ok response throws the formatted
error, a fetch failure rethrows. -/
def attemptOnce (responder : Nat → FetchOutcome) (useServiceBinding : Bool)
    (attempt : Nat) : Except JsError ApiResult :=
  match responder attempt with
  | .resp status r =>
    if 200 ≤ status ∧ status < 300 then .ok r
    else .error ⟨"Error", mkErrMsg useServiceBinding status r⟩
  | .abort => .error ⟨"AbortError", "The operation was aborted"⟩
  | .netErr m => .error ⟨"TypeError", m⟩

/-- `HttpClient.makeRequest` (src/unnamed/part_001 lines 35-70), with the
underlying fetch modelled by `responder` (indexed by attempt number).
Returns the final outcome together with the list of backoff delays slept
before each retry (`Math.pow(2, attempt-1) * 1000` ms). -/
def makeRequest (responder : Nat → FetchOutcome) (useServiceBinding : Bool)
    (retries : Nat) (attempt : Nat) : Except JsError ApiResult × List Nat :=
  match attemptOnce responder useServiceBinding attempt with
  | .ok r => (.ok r, [])
  | .error e =>
    if h : attempt ≤ retries ∧ isRetryableError e = true then
      let rest := makeRequest responder useServiceBinding retries (attempt + 1)
      (rest.1, 2 ^ (attempt - 1) * 1000 :: rest.2)
    else
      (.error e, [])
termination_by retries + 1 - attempt
decreasing_by omega

end HttpClient

namespace SSETr

/-- The state of an `SSETransport` (src/unnamed/part_006): whether it is
closed, whether a stream writer is attached, and the auto-increment event id
counter. -/
structure SSEState where
  closed : Bool
  hasWriter : Bool
  lastEventId : Nat
deriving DecidableEq

/-- Result of one transport operation: the new state, the event type written
to the stream if a write was attempted, and whether the operation threw. -/
structure SendOut where
  st : SSEState
  attempted : Option String
  threw : Bool
deriving DecidableEq

/-- `SSETransport.sendEvent` (src/unnamed/part_006 lines 68-96). `writeOk`
models whether the underlying `writer.write` succeeds; a failed write marks
the transport closed and rethrows. A closed or writer-less transport returns
without attempting anything. -/
def sendEvent (st : SSEState) (ty : String) (idArg : Option String)
    (writeOk : Bool) : SendOut :=
  if st.closed || !st.hasWriter then
    { st := st, attempted := none, threw := false }
  else
    let st1 :=
      if jsFalsyStr idArg then { st with lastEventId := st.lastEventId + 1 }
      else st
    if writeOk then { st := st1, attempted := some ty, threw := false }
    else { st := { st1 with closed := true }, attempted := some ty, threw := true }

/-- `SSETransport.close` (src/unnamed/part_006 lines 132-154): a no-op when
already closed; otherwise marks the transport closed, sends a `close` event
through `sendEvent` (which, the `closed` flag now being set, returns without
writing) and closes the writer. -/
def close (st : SSEState) : SendOut :=
  if st.closed then { st := st, attempted := none, threw := false }
  else
    let st1 : SSEState := { st with closed := true }
    if st1.hasWriter then
      let r := sendEvent st1 ("close") none true
      { st := { r.st with hasWriter := false }, attempted := r.attempted
        threw := false }
    else { st := st1, attempted := none, threw := false }

/-- A transport operation: an event send (with the success of the underlying
write) or a `close()` call. `sendMessage`, `sendHeartbeat` and `sendError`
all delegate to `sendEvent` and are instances of `send`. -/
inductive SSEOp where
  | send (ty : String) (idArg : Option String) (writeOk : Bool)
  | closeOp
deriving DecidableEq

/-- Run a list of transport operations, collecting the event types of every
write actually attempted on the stream. -/
def runOps (st : SSEState) : List SSEOp → SSEState × List String
  | [] => (st, [])
  | op :: ops =>
    let r :=
      match op with
      | .send ty idArg writeOk => sendEvent st ty idArg writeOk
      | .closeOp => close st
    let rest := runOps r.st ops
    (rest.1, (match r.attempted with | some ty => [ty] | none => []) ++ rest.2)

end SSETr

namespace SessionMgr

/-- `SessionInfo` (src/session/sessionManager.ts), with the transport handle
reduced to the one bit the manager reads from it (`transport.isClosed()`). -/
structure SessionInfo where
  createdAt : Nat
  lastActivityAt : Nat
  transportClosed : Bool
deriving DecidableEq

/-- The static state of `SSESessionManager`: the session table (in insertion
order) and the `lastCleanup` stamp. -/
structure SMState where
  sessions : List (String × SessionInfo)
  lastCleanup : Nat
deriving DecidableEq

/-- `SESSION_TIMEOUT = 5 * 60 * 1000`. -/
def SESSION_TIMEOUT : Nat := 300000

/-- `MAX_SESSIONS = 100`. -/
def MAX_SESSIONS : Nat := 100

/-- `CLEANUP_INTERVAL = 60 * 1000`. -/
def CLEANUP_INTERVAL : Nat := 60000

/-- `SSESessionManager.isSessionExpired`: idle longer than the timeout. -/
def isSessionExpired (now : Nat) (s : SessionInfo) : Bool :=
  SESSION_TIMEOUT < now - s.lastActivityAt

/-- `SSESessionManager.removeSession` (closing the transport is best-effort
and does not affect the table beyond the deletion). -/
def removeSession (st : SMState) (id : String) : SMState :=
  { st with sessions := jsMapDelete st.sessions id }

/-- `SSESessionManager.cleanupExpiredSessions` (lines 223-250): rate-limited
to one sweep per `CLEANUP_INTERVAL`; removes idle-expired and closed
sessions. -/
def cleanupExpiredSessions (st : SMState) (now : Nat) : SMState :=
  if now - st.lastCleanup < CLEANUP_INTERVAL then st
  else
    let victims := st.sessions.filter
      (fun p => isSessionExpired now p.2 || p.2.transportClosed)
    let st1 : SMState := { st with lastCleanup := now }
    victims.foldl (fun s v => removeSession s v.1) st1

/-- Creation-time order on session entries (the comparator
`a.createdAt.getTime() - b.createdAt.getTime()`; `List.insertionSort` with
`≤` matches the stable JS `Array.prototype.sort`). -/
def byCreated (a b : String × SessionInfo) : Prop :=
  a.2.createdAt ≤ b.2.createdAt

instance : DecidableRel byCreated :=
  fun a b => Nat.decLe a.2.createdAt b.2.createdAt

instance : IsTotal (String × SessionInfo) byCreated :=
  ⟨fun a b => Nat.le_total a.2.createdAt b.2.createdAt⟩

instance : IsTrans (String × SessionInfo) byCreated :=
  ⟨fun _ _ _ h1 h2 => Nat.le_trans h1 h2⟩

/-- `SSESessionManager.cleanupOldestSessions` (lines 255-269): removes the
first `count` sessions in creation-time order. -/
def cleanupOldestSessions (st : SMState) (count : Nat) : SMState :=
  let victims := (List.insertionSort byCreated st.sessions).take count
  victims.foldl (fun s v => removeSession s v.1) st

/-- `SSESessionManager.createSession` (lines 37-59): sweeps expired sessions,
then — if the table is at capacity — evicts the oldest
`Math.floor(MAX_SESSIONS * 0.1)` sessions. It only returns a fresh id; the
session entry is inserted by `addSession`. -/
def createSession (st : SMState) (now : Nat) : SMState :=
  let st1 := cleanupExpiredSessions st now
  if MAX_SESSIONS ≤ st1.sessions.length then
    cleanupOldestSessions st1 (MAX_SESSIONS / 10)
  else st1

/-- `SSESessionManager.addSession` (lines 64-78): unconditionally stores the
session entry under the given id. -/
def addSession (st : SMState) (id : String) (now : Nat) : SMState :=
  { st with sessions := jsMapSet st.sessions id (SessionInfo.mk now now false) }

/-- The create/add operation as the callers use it (and as the spec describes
`create/add`): `createSession` followed by `addSession` with the fresh id. -/
def createAndAddSession (st : SMState) (id : String) (now : Nat) : SMState :=
  addSession (createSession st now) id now

end SessionMgr

namespace Mcp

/-- A JSON-RPC id value (`number | string | null`); the enclosing `Option`
in `RpcMsg.id` models an absent (`undefined`) id. -/
inductive RpcId where
  | num (n : Int)
  | str (s : String)
  | null
deriving DecidableEq

/-- JS falsiness of an id value (`0`, `""` and `null` are falsy, which is
what the `id || null` coercion in `createJsonRpcError` tests). -/
def jsFalsyId : RpcId → Bool
  | .num n => n == 0
  | .str s => s == ""
  | .null => true

/-- An inbound JSON-RPC message as `handleHttpPost` sees it after JSON
parsing; every field may be absent. -/
structure RpcMsg where
  jsonrpc : Option String := none
  id : Option RpcId := none
  method : Option String := none
  params : Option JVal := none

/-- `McpErrorCode` (declared in src/types.ts, not included under src/; the
claims only depend on which code is used, not on its numeric value). -/
inductive McpErrorCode where
  | parseError
  | invalidRequest
  | methodNotFound
  | invalidParams
  | internalError
deriving DecidableEq

/-- The `error` member of a JSON-RPC error response. -/
structure RpcErrObj where
  code : McpErrorCode
  message : String
  data : Option JVal

/-- The body of a response: a `result` or an `error` member. -/
inductive RpcPayload where
  | result (v : JVal)
  | error (e : RpcErrObj)

/-- Whether a payload is an error. -/
def RpcPayload.isError : RpcPayload → Bool
  | .result _ => false
  | .error _ => true

/-- An outbound JSON-RPC response (`jsonrpc` is the constant `"2.0"`); the
`id` member is always present, possibly `null`. -/
structure RpcResponse where
  id : RpcId
  payload : RpcPayload

/-- `McpStreamableHttpHandler.createJsonRpcError` (src/unnamed/part_004
lines 480-495): the `id || null` coercion maps an absent or falsy id to
`null`; `...(data && { data })` drops a falsy `data`. -/
def createJsonRpcError (id : Option RpcId) (code : McpErrorCode)
    (msg : String) (data : Option JVal) : RpcResponse :=
  { id :=
      match id with
      | some i => if jsFalsyId i then RpcId.null else i
      | none => RpcId.null
    payload := .error ⟨code, msg, if jsTruthy data then data else none⟩ }

/-- `ToolResult` as consumed by `formatToolResult`. -/
structure ToolCallResult where
  success : Bool
  data : Option JVal
  message : Option String
  error : Option String

/-- The collaborators and per-request values `processJsonRpcMessage` draws
on: the session id `getOrCreateSession` yields, the current ISO timestamp,
the `MCP_SERVER_NAME`/`MCP_SERVER_VERSION` environment values, the registry
contents (`name`, `description`, `inputSchema` triples), the total
`ToolRegistry.callTool` (it never throws by design), and the
`JSON.stringify(-, null, 2)` serializer. -/
structure McpCtx where
  sessionId : String
  nowIso : String
  serverName : Option String
  serverVersion : Option String
  tools : List (String × String × JVal)
  callTool : JVal → JVal → ToolCallResult
  stringifyPretty : JVal → String

/-- JS template-literal coercion of the primitive values that can reach the
`` `操作成功: ${result.data}` `` branch (arrays/objects are handled by the
earlier branches, `null`/`false`/`0`/`""` are falsy and never reach it). -/
def jsDisplay : JVal → String
  | .jstr s => s
  | .jnum n => toString n
  | .jbool b => if b then "true" else "false"
  | .jnull => "null"
  | .jarr _ => ""
  | .jobj _ => "[object Object]"

/-- `McpStreamableHttpHandler.formatToolResult` (src/unnamed/part_004 lines
520-536). -/
def formatToolResult (ctx : McpCtx) (r : ToolCallResult) : String :=
  if r.success then
    if jsTruthy r.data then
      match r.data.getD JVal.jnull with
      | .jarr elems =>
        "操作成功，返回 " ++ toString elems.length ++ " 项结果:\n"
          ++ ctx.stringifyPretty (JVal.jarr elems)
      | .jobj fields => "操作成功:\n" ++ ctx.stringifyPretty (JVal.jobj fields)
      | d => "操作成功: " ++ jsDisplay d
    else jsOrStr r.message ("操作成功完成")
  else "错误: " ++ jsOrStr r.error ("未知错误")

/-- The `result` of `handleInitializeMethod` (lines 155-178). -/
def initializeResult (ctx : McpCtx) : JVal :=
  .jobj
    [("protocolVersion", .jstr ("2024-11-05")),
     ("capabilities",
      .jobj [("tools", .jobj []), ("resources", .jobj []),
             ("prompts", .jobj [])]),
     ("serverInfo",
      .jobj [("name", .jstr (jsOrStr ctx.serverName ("Mail Webhook MCP Server"))),
             ("version", .jstr (jsOrStr ctx.serverVersion ("1.0.0")))]),
     ("sessionId", .jstr ctx.sessionId)]

/-- The `result` of `handleListToolsMethod` (lines 183-209). -/
def listToolsResult (ctx : McpCtx) : JVal :=
  .jobj [("tools", .jarr (ctx.tools.map (fun t =>
    JVal.jobj [("name", .jstr t.1), ("description", .jstr t.2.1),
               ("inputSchema", t.2.2)])))]

/-- `McpStreamableHttpHandler.handleCallToolMethod` (lines 214-254):
`params?.name` must be truthy, `arguments` defaults to `{}`, the registry
result is wrapped into the `content`/`isError` envelope. -/
def handleCallToolMethod (ctx : McpCtx) (mid : RpcId) (params : Option JVal) :
    RpcResponse :=
  let nameField := jsGetField params "name"
  if !jsTruthy nameField then
    createJsonRpcError (some mid) .invalidParams ("缺少工具名称") none
  else
    let args := (jsGetField params "arguments").getD (JVal.jobj [])
    let r := ctx.callTool (nameField.getD JVal.jnull) args
    { id := mid
      payload := .result (.jobj
        [("content",
          .jarr [.jobj [("type", .jstr ("text")),
                        ("text", .jstr (formatToolResult ctx r))]]),
         ("isError", .jbool (!r.success))]) }

/-- The `${message.method}` rendering in the MethodNotFound message. -/
def displayMethod : Option String → String
  | some s => s
  | none => "undefined"

/-- `McpStreamableHttpHandler.processJsonRpcMessage` (src/unnamed/part_004
lines 103-150): invalid envelopes get an InvalidRequest error, messages
without an id are notifications and yield no response, the rest dispatch on
the method with MethodNotFound as the default. -/
def processJsonRpcMessage (ctx : McpCtx) (m : RpcMsg) : Option RpcResponse :=
  if m.jsonrpc != some "2.0" then
    some (createJsonRpcError m.id .invalidRequest ("无效的 JSON-RPC 格式") none)
  else
    match m.id with
    | none => none
    | some mid =>
      if m.method == some "initialize" then
        some { id := mid, payload := .result (initializeResult ctx) }
      else if m.method == some "tools/list" then
        some { id := mid, payload := .result (listToolsResult ctx) }
      else if m.method == some "tools/call" then
        some (handleCallToolMethod ctx mid m.params)
      else if m.method == some "ping" then
        some { id := mid
               payload := .result (.jobj [("pong", .jbool true),
                 ("timestamp", .jstr ctx.nowIso)]) }
      else
        some (createJsonRpcError (some mid) .methodNotFound
          ("未知方法: " ++ displayMethod m.method) none)

/-- A parsed POST body: a single message or a batch array. -/
inductive PostBody where
  | single (m : RpcMsg)
  | batch (ms : List RpcMsg)

/-- The body `c.json(...)` serializes: one response object or an array. -/
inductive RespBody where
  | one (r : RpcResponse)
  | arr (rs : List RpcResponse)

/-- The HTTP response of `handleHttpPost`: a JSON body with a status, or the
body-less `204 No Content`. -/
inductive HttpOut where
  | json (body : RespBody) (status : Nat)
  | noContent

/-- `McpStreamableHttpHandler.handleHttpPost` (src/unnamed/part_004 lines
43-78): requires a JSON content type (`contentTypeJson`), treats an
unparsable body (`none`) as a ParseError, maps a batch through
`processJsonRpcMessage` keeping the non-null responses, answers a lone
notification with 204 and anything else with the JSON response. -/
def handleHttpPost (ctx : McpCtx) (contentTypeJson : Bool)
    (body : Option PostBody) : HttpOut :=
  if !contentTypeJson then
    .json (.one (createJsonRpcError none .invalidRequest
      ("必须使用 application/json") none)) 400
  else
    match body with
    | none =>
      .json (.one (createJsonRpcError none .parseError ("请求解析失败") none)) 400
    | some (.batch ms) =>
      .json (.arr (ms.filterMap (processJsonRpcMessage ctx))) 200
    | some (.single m) =>
      match processJsonRpcMessage ctx m with
      | none => .noContent
      | some r => .json (.one r) 200

end Mcp

/-! ## Claim theorems -/

section Claims

open RateLimiter CacheMgr AuthMgr HttpClient SSETr SessionMgr Mcp

/-- C10: whenever `MCP_API_TOKEN` is not configured (unset or empty — the JS
falsiness test), `verifyApiToken` returns `false` for every possible token
argument, so no request authenticates against an unconfigured server. -/
theorem verifyApiToken_fails_closed (env : AuthEnv) (token : Option String)
    (h : jsFalsyStr env.MCP_API_TOKEN = true) :
    verifyApiToken env token = false := by
  unfold verifyApiToken
  simp [h]

/-- Witness for C10 at a concrete unconfigured environment and a well-formed
Bearer token. -/
theorem verifyApiToken_fails_closed_witness :
    jsFalsyStr (AuthEnv.mk none).MCP_API_TOKEN = true ∧
    verifyApiToken (AuthEnv.mk none) (some "Bearer secret-token") = false :=
  ⟨by decide, verifyApiToken_fails_closed (AuthEnv.mk none)
    (some "Bearer secret-token") (by decide)⟩

/-- The `Object.assign`-then-check configuration equals the spec's pure
derived configuration. -/
theorem configDuring_eq_effective (st : RLState) (e : String) :
    configDuringEndpointCheck st e = effectiveConfigSpec st.config e := by
  unfold configDuringEndpointCheck applyOverride getEndpointConfig
    effectiveConfigSpec
  split_ifs <;> rfl

/-- C3 (amended): `isRateLimitedByEndpoint` returns the same result and
record updates as a check against the pure derived configuration
(`max/6` for `/admin`, `floor(0.8*max)` for `/mcp/tools/call`,
`floor(0.3*max)` for `/mcp/tools`), and the config stored in the state after
the call equals the config before it; however the shared config is mutated
during the check (see the counterexample), it is only restored afterwards. -/
theorem rl_endpoint_check_equiv_pure (st : RLState) (c e : String) (now : Nat) :
    isRateLimitedByEndpoint st c e now =
      (let r := isRateLimited
        { st with config := effectiveConfigSpec st.config e } c (some e) now
       (r.1, { r.2 with config := st.config })) ∧
    (isRateLimitedByEndpoint st c e now).2.config = st.config := by
  constructor
  · unfold isRateLimitedByEndpoint
    rw [configDuring_eq_effective]
  · rfl

/-- C3 counterexample: during an endpoint-specific check the configuration
observed by the inner `isRateLimited` call is NOT the base configuration —
with base max 60, a `/admin` check runs against max 10 — refuting "the
shared base configuration ... is identical at every point during the check
to its value before the call". -/
theorem rl_endpoint_check_mutates_config :
    configDuringEndpointCheck ⟨⟨true, 60000, 60, false⟩, []⟩ "/admin" =
      ⟨true, 60000, 10, false⟩ ∧
    configDuringEndpointCheck ⟨⟨true, 60000, 60, false⟩, []⟩ "/admin" ≠
      ⟨true, 60000, 60, false⟩ := by
  constructor
  · decide
  · decide

end Claims

section ClaimsSSE

open SSETr

/-- A transport in the Closed state absorbs `sendEvent`: nothing is written,
nothing is thrown, the state does not change. -/
theorem sse_send_on_closed (st : SSEState) (h : st.closed = true)
    (ty : String) (idArg : Option String) (writeOk : Bool) :
    sendEvent st ty idArg writeOk = ⟨st, none, false⟩ := by
  unfold sendEvent
  simp [h]

/-- A transport in the Closed state absorbs `close`. -/
theorem sse_close_on_closed (st : SSEState) (h : st.closed = true) :
    close st = ⟨st, none, false⟩ := by
  unfold close
  simp [h]

/-- No operation sequence on a Closed transport ever attempts a write. -/
theorem sse_closed_no_writes (st : SSEState) (h : st.closed = true) :
    ∀ ops : List SSEOp, runOps st ops = (st, []) := by
  intro ops
  induction ops with
  | nil => rfl
  | cons op ops ih =>
    cases op with
    | send ty idArg writeOk =>
      simp [runOps, sse_send_on_closed st h, ih]
    | closeOp =>
      simp [runOps, sse_close_on_closed st h, ih]

/-- C8: on an open transport with a writer, a failed `sendEvent` write is an
immediate transition to Closed (and the error is rethrown); afterwards no
operation sequence — further `sendEvent`s of any kind or a later `close()` —
ever attempts another event on the stream, and the `close()` writes no
`close` event. -/
theorem sse_write_failure_closes (st : SSEState) (ty : String)
    (idArg : Option String) (h1 : st.closed = false) (h2 : st.hasWriter = true) :
    (sendEvent st ty idArg false).st.closed = true ∧
    (sendEvent st ty idArg false).threw = true ∧
    (∀ ops : List SSEOp, runOps (sendEvent st ty idArg false).st ops =
      ((sendEvent st ty idArg false).st, [])) ∧
    (close (sendEvent st ty idArg false).st).attempted = none := by
  have hclosed : (sendEvent st ty idArg false).st.closed = true := by
    unfold sendEvent
    simp [h1, h2]
  refine ⟨hclosed, ?_, sse_closed_no_writes _ hclosed, ?_⟩
  · unfold sendEvent
    simp [h1, h2]
  · rw [sse_close_on_closed _ hclosed]

/-- Witness for C8 at a concrete open transport. -/
theorem sse_write_failure_closes_witness :
    (SSEState.mk false true 0).closed = false ∧
    (SSEState.mk false true 0).hasWriter = true ∧
    ((sendEvent (SSEState.mk false true 0) ("message") none false).st.closed = true ∧
     (sendEvent (SSEState.mk false true 0) ("message") none false).threw = true ∧
     (∀ ops : List SSEOp,
       runOps (sendEvent (SSEState.mk false true 0) ("message") none false).st ops =
         ((sendEvent (SSEState.mk false true 0) ("message") none false).st, [])) ∧
     (close (sendEvent (SSEState.mk false true 0) ("message") none false).st).attempted
       = none) :=
  ⟨rfl, rfl, sse_write_failure_closes (SSEState.mk false true 0) ("message")
    none rfl rfl⟩

end ClaimsSSE

section ClaimsHttp

open HttpClient

/-- C7 (code bug evaluation): a backend answering `400 Bad Request` over the
service binding produces the thrown message `Service 400: Bad Request`,
which `isRetryableError` classifies as retryable (the check only looks for
the substring `HTTP 4`), so `makeRequest` with `retries = 2` retries twice
with backoff delays 1000 ms and 2000 ms — while the identical 4xx response
over the HTTP API is not retried at all, and an `AbortError` is never
retried. This contradicts the claim that 4xx responses are never retried
regardless of transport. -/
theorem makeRequest_retries_4xx_over_service_binding :
    makeRequest
      (fun _ => FetchOutcome.resp 400 ⟨some "Bad Request", none, none⟩)
      true 2 1 =
      (.error ⟨"Error", "Service 400: Bad Request"⟩, [1000, 2000]) ∧
    makeRequest
      (fun _ => FetchOutcome.resp 400 ⟨some "Bad Request", none, none⟩)
      false 2 1 =
      (.error ⟨"Error", "HTTP 400: Bad Request"⟩, []) ∧
    isRetryableError ⟨"Error", "Service 400: Bad Request"⟩ = true ∧
    isRetryableError ⟨"AbortError", "The operation was aborted"⟩ = false := by
  refine ⟨?_, ?_, by decide, by decide⟩
  · unfold makeRequest
    unfold makeRequest
    unfold makeRequest
    decide
  · unfold makeRequest
    decide

end ClaimsHttp

section MapLemmas

variable {β : Type}

/-- Replacing the value under `k` makes `find?` on `k` return it, provided
the key was present. -/
theorem find?_replace_of_isSome (m : List (String × β)) (k : String) (v : β)
    (h : (m.find? (fun p => p.1 == k)).isSome = true) :
    (m.map (fun p => if p.1 == k then (k, v) else p)).find?
      (fun p => p.1 == k) = some (k, v) := by
  induction m with
  | nil => simp at h
  | cons p m ih =>
    by_cases hp : p.1 = k
    · simp [List.find?_cons, hp]
    · have hp' : (p.1 == k) = false := by simp [hp]
      simp only [List.find?_cons, hp'] at h
      simp only [List.map_cons, List.find?_cons, hp', Bool.false_eq_true,
        if_false]
      exact ih h

/-- `jsMapGet` after `jsMapSet` of the same key yields the new value. -/
theorem jsMapGet_set_self (m : List (String × β)) (k : String) (v : β) :
    jsMapGet (jsMapSet m k v) k = some v := by
  unfold jsMapSet
  split
  · rename_i h
    unfold jsMapGet
    rw [find?_replace_of_isSome m k v h]
    rfl
  · rename_i h
    unfold jsMapGet
    rw [List.find?_append]
    have hnone : m.find? (fun p => p.1 == k) = none := by
      cases hf : m.find? (fun p => p.1 == k) with
      | none => rfl
      | some p => rw [hf] at h; simp at h
    simp [hnone]

/-- `jsMapGet` after `jsMapDelete` of the same key misses. -/
theorem jsMapGet_delete_self (m : List (String × β)) (k : String) :
    jsMapGet (jsMapDelete m k) k = none := by
  unfold jsMapGet jsMapDelete
  have : (m.filter (fun p => p.1 != k)).find? (fun p => p.1 == k) = none := by
    rw [List.find?_eq_none]
    intro x hx
    rcases List.mem_filter.mp hx with ⟨-, hne⟩
    simpa using hne
  simp [this]

end MapLemmas

section ClaimsCache

open CacheMgr

/-- The entry a `set(key, data, T)` at time `t0` writes (for `T ≠ 0`). -/
def setEntry (st : CacheMgr.CacheState) (data : JVal) (T t0 : Nat) :
    CacheMgr.CacheEntry :=
  ⟨data, t0 - t0 % 1000, T, st.config.staleWhileRevalidate⟩

/-- The state after `set(key, data, T)` at time `t0`. -/
theorem cacheSet_state (st : CacheState) (key : String) (data : JVal)
    (T t0 : Nat) (hen : st.config.enabled = true) (hT : T ≠ 0) :
    (cacheSet st key data (some T) t0).2 =
      { st with entries := (jsMapSet st.entries (cacheKeyOf st key)
          (setEntry st data T t0)) } := by
  unfold cacheSet setEntry
  have hT' : (T == 0) = false := by simpa using hT
  simp [hen, hT']

/-- Reading `key` at time `t` after `set(key, data, T)` at time `t0`: a miss
that purges the entry if the (second-truncated) age exceeds `T` seconds,
otherwise the stored payload. -/
theorem cacheGet_after_set (st : CacheState) (key : String) (data : JVal)
    (T t0 t : Nat) (hen : st.config.enabled = true) (hT : T ≠ 0) :
    cacheGet (cacheSet st key data (some T) t0).2 key t =
      if T * 1000 < t - (t0 - t0 % 1000) then
        (JVal.jnull, { st with entries := (jsMapDelete (jsMapSet st.entries
          (cacheKeyOf st key) (setEntry st data T t0)) (cacheKeyOf st key)) })
      else
        (data, { st with entries := (jsMapSet st.entries (cacheKeyOf st key)
          (setEntry st data T t0)) }) := by
  rw [cacheSet_state st key data T t0 hen hT]
  unfold cacheGet cacheDelete
  have hck : cacheKeyOf { st with entries := (jsMapSet st.entries
      (cacheKeyOf st key) (setEntry st data T t0)) } key = cacheKeyOf st key := rfl
  rw [hck]
  have hget : jsMapGet (jsMapSet st.entries (cacheKeyOf st key)
      (setEntry st data T t0)) (cacheKeyOf st key) =
      some (setEntry st data T t0) := jsMapGet_set_self _ _ _
  simp only [hen, Bool.not_true, Bool.false_eq_true, if_false, hget]
  rfl

/-- C6: an entry whose age exceeds its max-age is never served — `get`
deletes it and reports a miss; and concretely, with a 1000 ms TTL (a
`max-age` of 1 second, the ttl argument being in seconds), a `set("k",
{"v":1})` is served by an immediate `get("k")` and is a purged miss for a
`get("k")` 1100 ms later, whatever the wall-clock time of the `set`. -/
theorem cache_expired_never_served (st : CacheState) (key : String)
    (e : CacheEntry) (now : Nat)
    (hen : st.config.enabled = true)
    (hentry : jsMapGet st.entries (cacheKeyOf st key) = some e)
    (hage : e.maxAge * 1000 < now - e.dateMs) :
    cacheGet st key now =
      (JVal.jnull,
        { st with entries := jsMapDelete st.entries (cacheKeyOf st key) }) ∧
    jsMapGet (cacheGet st key now).2.entries (cacheKeyOf st key) = none ∧
    (∀ (st2 : CacheState) (t0 : Nat), st2.config.enabled = true →
      (cacheGet ((cacheSet st2 "k" (JVal.jobj [("v", JVal.jnum 1)])
          (some 1) t0).2) "k" t0).1 = JVal.jobj [("v", JVal.jnum 1)] ∧
      (cacheGet ((cacheSet st2 "k" (JVal.jobj [("v", JVal.jnum 1)])
          (some 1) t0).2) "k" (t0 + 1100)).1 = JVal.jnull ∧
      jsMapGet (cacheGet ((cacheSet st2 "k" (JVal.jobj [("v", JVal.jnum 1)])
          (some 1) t0).2) "k" (t0 + 1100)).2.entries (cacheKeyOf st2 "k")
        = none) := by
  have hmain : cacheGet st key now =
      (JVal.jnull,
        { st with entries := jsMapDelete st.entries (cacheKeyOf st key) }) := by
    unfold cacheGet cacheDelete
    simp only [hen, Bool.not_true, Bool.false_eq_true, if_false, hentry]
    rw [if_pos hage]
  refine ⟨hmain, ?_, ?_⟩
  · rw [hmain]
    exact jsMapGet_delete_self _ _
  · intro st2 t0 hen2
    have h1 := cacheGet_after_set st2 "k" (JVal.jobj [("v", JVal.jnum 1)])
      1 t0 t0 hen2 (by omega)
    have h2 := cacheGet_after_set st2 "k" (JVal.jobj [("v", JVal.jnum 1)])
      1 t0 (t0 + 1100) hen2 (by omega)
    rw [if_neg (by omega : ¬ (1 * 1000 < t0 - (t0 - t0 % 1000)))] at h1
    rw [if_pos (by omega : 1 * 1000 < t0 + 1100 - (t0 - t0 % 1000))] at h2
    refine ⟨?_, ?_, ?_⟩
    · rw [h1]
    · rw [h2]
    · rw [h2]
      exact jsMapGet_delete_self _ _

end ClaimsCache

section ClaimsCache2

open CacheMgr

/-- A concrete cache state holding an already-expired entry for key `k`. -/
def wCacheSt : CacheMgr.CacheState :=
  ⟨⟨true, 300, 600, none⟩, "mcp-server",
   [("mcp-server:v1:k", ⟨JVal.jstr "old", 0, 1, none⟩)]⟩

/-- Witness for C6: at time 5000 the entry written at time 0 with max-age 1 s
is purged and reported as a miss. -/
theorem cache_expired_never_served_witness :
    cacheGet wCacheSt "k" 5000 =
      (JVal.jnull,
        { wCacheSt with
          entries := jsMapDelete wCacheSt.entries (cacheKeyOf wCacheSt "k") }) :=
  (cache_expired_never_served wCacheSt "k" ⟨JVal.jstr "old", 0, 1, none⟩ 5000
    rfl rfl (by decide)).1

/-- The resolved `max-age` of a `set` call: `ttl || this.config.defaultTtl`. -/
def cacheTtlVal (st : CacheMgr.CacheState) : Option Nat → Nat
  | some t => if t == 0 then st.config.defaultTtl else t
  | none => st.config.defaultTtl

/-- The state after `set(key, data, ttl)` for an arbitrary ttl argument. -/
theorem cacheSet_state_any (st : CacheState) (key : String) (data : JVal)
    (ttl : Option Nat) (t0 : Nat) (hen : st.config.enabled = true) :
    (cacheSet st key data ttl t0).2 =
      { st with entries := (jsMapSet st.entries (cacheKeyOf st key)
          (setEntry st data (cacheTtlVal st ttl) t0)) } := by
  unfold cacheSet setEntry cacheTtlVal
  cases ttl with
  | none => simp [hen]
  | some t => by_cases ht : (t == 0) = true <;> simp [hen, ht]

/-- `get` on a cache whose entry under the key stores the JSON `null` always
returns `null` — whether the entry is fresh (its body is `null`) or expired
(a purged miss). -/
theorem cacheGet_after_set_null (st : CacheState) (key : String)
    (ttl : Option Nat) (t0 t : Nat) (hen : st.config.enabled = true) :
    (cacheGet (cacheSet st key JVal.jnull ttl t0).2 key t).1 = JVal.jnull := by
  rw [cacheSet_state_any st key JVal.jnull ttl t0 hen]
  unfold cacheGet
  have hck : cacheKeyOf { st with entries := (jsMapSet st.entries
      (cacheKeyOf st key) (setEntry st JVal.jnull (cacheTtlVal st ttl) t0)) }
      key = cacheKeyOf st key := rfl
  rw [hck]
  have hget := jsMapGet_set_self st.entries (cacheKeyOf st key)
    (setEntry st JVal.jnull (cacheTtlVal st ttl) t0)
  simp only [hen, Bool.not_true, Bool.false_eq_true, if_false, hget]
  split_ifs <;> rfl

/-- A `get` of an absent key misses and leaves the state unchanged. -/
theorem cacheGet_miss (st : CacheState) (key : String) (now : Nat)
    (hen : st.config.enabled = true)
    (habs : jsMapGet st.entries (cacheKeyOf st key) = none) :
    cacheGet st key now = (JVal.jnull, st) := by
  unfold cacheGet
  simp [hen, habs]

/-- A `getOrSet` that misses fetches once, stores the fetched value and
returns it. -/
theorem getOrSet_miss (st : CacheState) (key : String) (fetchVal : JVal)
    (ttl : Option Nat) (t1 : Nat)
    (hen : st.config.enabled = true)
    (habs : jsMapGet st.entries (cacheKeyOf st key) = none) :
    getOrSet st key fetchVal ttl t1 =
      ⟨fetchVal, (cacheSet st key fetchVal ttl t1).2, 1⟩ := by
  unfold getOrSet
  rw [cacheGet_miss st key t1 hen habs]
  rfl

/-- C9: a fetch function resolving to `null` is not cached as a hit: the
`getOrSet` returns `null` (after storing it), and every subsequent
`getOrSet` for the key — whatever value its fetch now resolves to, and at any
time, in particular still inside the ttl — misses at the read path and
invokes its fetch function again, and a plain `get` also reports `null`. -/
theorem getOrSet_null_fetch_not_cached (st : CacheState) (key : String)
    (ttl : Option Nat) (t1 : Nat)
    (hen : st.config.enabled = true)
    (habs : jsMapGet st.entries (cacheKeyOf st key) = none) :
    (getOrSet st key JVal.jnull ttl t1).value = JVal.jnull ∧
    (getOrSet st key JVal.jnull ttl t1).fetches = 1 ∧
    (∀ (v2 : JVal) (ttl2 : Option Nat) (t2 : Nat),
      (getOrSet (getOrSet st key JVal.jnull ttl t1).st key v2 ttl2 t2).fetches
        = 1) ∧
    (∀ t2 : Nat,
      (cacheGet (getOrSet st key JVal.jnull ttl t1).st key t2).1
        = JVal.jnull) := by
  have hc1 := getOrSet_miss st key JVal.jnull ttl t1 hen habs
  have hget2 : ∀ t2 : Nat,
      (cacheGet (getOrSet st key JVal.jnull ttl t1).st key t2).1
        = JVal.jnull := by
    intro t2
    rw [hc1]
    exact cacheGet_after_set_null st key ttl t1 t2 hen
  refine ⟨by rw [hc1], by rw [hc1], ?_, hget2⟩
  intro v2 ttl2 t2
  have hv := hget2 t2
  generalize hX : (getOrSet st key JVal.jnull ttl t1).st = X at hv ⊢
  simp only [getOrSet]
  rw [hv]
  rfl

/-- A concrete enabled cache state with empty contents. -/
def wCacheSt0 : CacheMgr.CacheState :=
  ⟨⟨true, 300, 600, none⟩, "mcp-server", []⟩

/-- Witness for C9 on an empty enabled cache at time 0. -/
theorem getOrSet_null_fetch_not_cached_witness :
    (getOrSet wCacheSt0 "k" JVal.jnull (some 60) 0).value = JVal.jnull ∧
    (getOrSet wCacheSt0 "k" JVal.jnull (some 60) 0).fetches = 1 ∧
    (∀ (v2 : JVal) (ttl2 : Option Nat) (t2 : Nat),
      (getOrSet (getOrSet wCacheSt0 "k" JVal.jnull (some 60) 0).st "k" v2
        ttl2 t2).fetches = 1) ∧
    (∀ t2 : Nat,
      (cacheGet (getOrSet wCacheSt0 "k" JVal.jnull (some 60) 0).st "k" t2).1
        = JVal.jnull) :=
  getOrSet_null_fetch_not_cached wCacheSt0 "k" (some 60) 0 rfl rfl

end ClaimsCache2

section ClaimsCache3

open CacheMgr

/-- C5 (amended): provided the fetch resolves to a non-null value and the
key is fresh, two `getOrSet(key, fetchFn, ttl)` calls where the second falls
within `ttl` seconds of the first call's write timestamp — which the `Date`
header records truncated to whole seconds — invoke the fetch at most once in
total and both return the fetched payload; a later call whose age exceeds
`ttl` treats the entry as absent and fetches again. -/
theorem getOrSet_dedup_within_ttl (st : CacheState) (key : String)
    (fetchVal : JVal) (T t1 t2 : Nat)
    (hen : st.config.enabled = true)
    (hnn : fetchVal.isNull = false)
    (habs : jsMapGet st.entries (cacheKeyOf st key) = none)
    (hT : T ≠ 0)
    (hin : t2 - (t1 - t1 % 1000) ≤ T * 1000) :
    (getOrSet st key fetchVal (some T) t1).value = fetchVal ∧
    (getOrSet st key fetchVal (some T) t1).fetches = 1 ∧
    (getOrSet (getOrSet st key fetchVal (some T) t1).st key fetchVal
      (some T) t2).value = fetchVal ∧
    (getOrSet (getOrSet st key fetchVal (some T) t1).st key fetchVal
      (some T) t2).fetches = 0 ∧
    (getOrSet st key fetchVal (some T) t1).fetches +
      (getOrSet (getOrSet st key fetchVal (some T) t1).st key fetchVal
        (some T) t2).fetches ≤ 1 ∧
    (∀ t3 : Nat, T * 1000 < t3 - (t1 - t1 % 1000) →
      (getOrSet (getOrSet (getOrSet st key fetchVal (some T) t1).st key
        fetchVal (some T) t2).st key fetchVal (some T) t3).fetches = 1) := by
  have hc1 := getOrSet_miss st key fetchVal (some T) t1 hen habs
  have hset1 := cacheSet_state st key fetchVal T t1 hen hT
  have hg2 : cacheGet (cacheSet st key fetchVal (some T) t1).2 key t2 =
      (fetchVal, (cacheSet st key fetchVal (some T) t1).2) := by
    rw [cacheGet_after_set st key fetchVal T t1 t2 hen hT,
      if_neg (show ¬ T * 1000 < t2 - (t1 - t1 % 1000) by omega), hset1]
  have hc2 : getOrSet (cacheSet st key fetchVal (some T) t1).2 key fetchVal
      (some T) t2 =
      ⟨fetchVal, (cacheSet st key fetchVal (some T) t1).2, 0⟩ := by
    simp only [getOrSet]
    rw [hg2]
    simp [hnn]
  refine ⟨by rw [hc1], by rw [hc1], ?_, ?_, ?_, ?_⟩
  · rw [hc1]
    dsimp only
    rw [hc2]
  · rw [hc1]
    dsimp only
    rw [hc2]
  · rw [hc1]
    dsimp only
    rw [hc2]
    dsimp only
    omega
  · intro t3 hstale
    rw [hc1]
    dsimp only
    rw [hc2]
    dsimp only
    have hg3 : (cacheGet (cacheSet st key fetchVal (some T) t1).2 key t3).1
        = JVal.jnull := by
      rw [cacheGet_after_set st key fetchVal T t1 t3 hen hT,
        if_pos hstale]
    generalize hX : (cacheSet st key fetchVal (some T) t1).2 = X at hg3 ⊢
    simp only [getOrSet]
    rw [hg3]
    rfl

/-- C5 counterexample: on a fresh enabled cache, (i) a fetch resolving to
JSON `null` is stored but reads back as a miss, so two `getOrSet` calls at
the same instant (separation 0 < ttl) invoke the fetch twice; (ii) because
the write timestamp is truncated to whole seconds, a first call at t=999 ms
with ttl 1 s and a second call at t=1998 ms — 999 ms < 1000 ms later — also
fetch twice. Both contradict "two calls within ttl invoke fetchFn at most
once in total". -/
theorem getOrSet_dedup_counterexample :
    (getOrSet wCacheSt0 "k" JVal.jnull (some 60) 0).fetches = 1 ∧
    (getOrSet (getOrSet wCacheSt0 "k" JVal.jnull (some 60) 0).st "k"
      JVal.jnull (some 60) 0).fetches = 1 ∧
    (getOrSet wCacheSt0 "k" (JVal.jstr "x") (some 1) 999).fetches = 1 ∧
    (getOrSet (getOrSet wCacheSt0 "k" (JVal.jstr "x") (some 1) 999).st "k"
      (JVal.jstr "x") (some 1) 1998).fetches = 1 ∧
    1998 - 999 < 1 * 1000 :=
  ⟨rfl, rfl, rfl, rfl, by decide⟩

/-- Witness for C5 (amended) with a 60 s ttl, a first call at 1000 ms and a
second at 30000 ms: one fetch, then a hit. -/
theorem getOrSet_dedup_within_ttl_witness :
    (getOrSet wCacheSt0 "k" (JVal.jstr "v") (some 60) 1000).fetches = 1 ∧
    (getOrSet (getOrSet wCacheSt0 "k" (JVal.jstr "v") (some 60) 1000).st "k"
      (JVal.jstr "v") (some 60) 30000).fetches = 0 :=
  ⟨(getOrSet_dedup_within_ttl wCacheSt0 "k" (JVal.jstr "v") 60 1000 30000
      rfl rfl rfl (by decide) (by decide)).2.1,
   (getOrSet_dedup_within_ttl wCacheSt0 "k" (JVal.jstr "v") 60 1000 30000
      rfl rfl rfl (by decide) (by decide)).2.2.2.1⟩

end ClaimsCache3

section ClaimsRL

open RateLimiter

/-- A check on a fresh key (no record) under `1 ≤ maxRequests`: allowed,
with a new window starting at the call time. -/
theorem isRateLimited_step_none (st : RLState) (c : String) (ep : Option String)
    (t : Nat) (hen : st.config.enabled = true)
    (habs : jsMapGet st.records (generateKey c ep) = none)
    (hm : 1 ≤ st.config.maxRequests) :
    isRateLimited st c ep t =
      (⟨false, ⟨1, t + st.config.windowMs, false⟩, none⟩,
       { st with records := (jsMapSet st.records (generateKey c ep)
          ⟨1, t + st.config.windowMs, false⟩) }) := by
  unfold isRateLimited
  simp only [hen, Bool.not_true, Bool.false_eq_true, if_false, habs]
  rw [if_neg (show ¬ 0 + 1 > st.config.maxRequests by omega)]

/-- A check whose record has `now ≥ resetTime` starts a fresh window — the
count is reset before incrementing — and is allowed when `1 ≤ maxRequests`. -/
theorem isRateLimited_step_expired (st : RLState) (c : String)
    (ep : Option String) (t : Nat) (rec : RateLimitRecord)
    (hen : st.config.enabled = true)
    (hrec : jsMapGet st.records (generateKey c ep) = some rec)
    (hexp : rec.resetTime ≤ t)
    (hm : 1 ≤ st.config.maxRequests) :
    isRateLimited st c ep t =
      (⟨false, ⟨1, t + st.config.windowMs, false⟩, none⟩,
       { st with records := (jsMapSet st.records (generateKey c ep)
          ⟨1, t + st.config.windowMs, false⟩) }) := by
  unfold isRateLimited
  simp only [hen, Bool.not_true, Bool.false_eq_true, if_false, hrec]
  rw [if_pos (show t ≥ rec.resetTime from hexp)]
  rw [if_neg (show ¬ 0 + 1 > st.config.maxRequests by omega)]

/-- An in-window check on an unblocked record below the limit: allowed,
count incremented, same window. -/
theorem isRateLimited_step_allowed (st : RLState) (c : String)
    (ep : Option String) (t k R : Nat)
    (hen : st.config.enabled = true)
    (hrec : jsMapGet st.records (generateKey c ep) = some ⟨k, R, false⟩)
    (ht : t < R)
    (hk : k + 1 ≤ st.config.maxRequests) :
    isRateLimited st c ep t =
      (⟨false, ⟨k + 1, R, false⟩, none⟩,
       { st with records := (jsMapSet st.records (generateKey c ep)
          ⟨k + 1, R, false⟩) }) := by
  unfold isRateLimited
  simp only [hen, Bool.not_true, Bool.false_eq_true, if_false, hrec]
  rw [if_neg (show ¬ t ≥ R by omega)]
  rw [if_neg (show ¬ k + 1 > st.config.maxRequests by omega)]

/-- An in-window check that pushes the count past the limit: blocked, with
`retryAfter = ceil((resetTime - now)/1000)`. -/
theorem isRateLimited_step_blocked (st : RLState) (c : String)
    (ep : Option String) (t k R : Nat)
    (hen : st.config.enabled = true)
    (hrec : jsMapGet st.records (generateKey c ep) = some ⟨k, R, false⟩)
    (ht : t < R)
    (hk : st.config.maxRequests < k + 1) :
    isRateLimited st c ep t =
      (⟨true, ⟨k + 1, R, true⟩, some (ceilDiv1000 (R - t))⟩,
       { st with records := (jsMapSet st.records (generateKey c ep)
          ⟨k + 1, R, true⟩) }) := by
  unfold isRateLimited
  simp only [hen, Bool.not_true, Bool.false_eq_true, if_false, hrec]
  rw [if_neg (show ¬ t ≥ R by omega)]
  rw [if_pos (show k + 1 > st.config.maxRequests from hk)]

/-- A sequence of in-window checks that stays within the limit: every result
is allowed, the config is untouched, and the record counts the calls. -/
theorem isRateLimitedSeq_allowed (c : String) (ep : Option String) :
    ∀ (ts : List Nat) (st : RLState) (k R : Nat),
      st.config.enabled = true →
      jsMapGet st.records (generateKey c ep) = some ⟨k, R, false⟩ →
      (∀ t ∈ ts, t < R) →
      k + ts.length ≤ st.config.maxRequests →
      (∀ r ∈ (isRateLimitedSeq st c ep ts).1, r.limited = false) ∧
      (isRateLimitedSeq st c ep ts).2.config = st.config ∧
      jsMapGet (isRateLimitedSeq st c ep ts).2.records (generateKey c ep) =
        some ⟨k + ts.length, R, false⟩ := by
  intro ts
  induction ts with
  | nil =>
    intro st k R hen hrec hts hbound
    refine ⟨?_, rfl, ?_⟩
    · intro r hr
      simp [isRateLimitedSeq] at hr
    · simpa using hrec
  | cons t ts ih =>
    intro st k R hen hrec hts hbound
    have hstep := isRateLimited_step_allowed st c ep t k R hen hrec
      (hts t (by simp)) (by simp at hbound; omega)
    have hrec1 : jsMapGet (jsMapSet st.records (generateKey c ep)
        (⟨k + 1, R, false⟩ : RateLimitRecord)) (generateKey c ep) =
        some ⟨k + 1, R, false⟩ := jsMapGet_set_self _ _ _
    have hih := ih { st with records := (jsMapSet st.records (generateKey c ep)
        ⟨k + 1, R, false⟩) } (k + 1) R hen hrec1
      (by intro x hx; exact hts x (by simp [hx]))
      (by simp at hbound ⊢; omega)
    simp only [isRateLimitedSeq, hstep]
    refine ⟨?_, hih.2.1, ?_⟩
    · intro r hr
      rcases List.mem_cons.mp hr with h | h
      · rw [h]
      · exact hih.1 r h
    · rw [hih.2.2]
      simp [List.length_cons]
      omega

/-- A sequence of checks yields one result per call. -/
theorem isRateLimitedSeq_length (c : String) (ep : Option String) :
    ∀ (ts : List Nat) (st : RLState),
      (isRateLimitedSeq st c ep ts).1.length = ts.length := by
  intro ts
  induction ts with
  | nil => intro st; rfl
  | cons t ts ih =>
    intro st
    simp only [isRateLimitedSeq, List.length_cons, ih]

/-- Threading a sequence of checks over an append. -/
theorem isRateLimitedSeq_append (c : String) (ep : Option String) :
    ∀ (ts1 ts2 : List Nat) (st : RLState),
      isRateLimitedSeq st c ep (ts1 ++ ts2) =
        ((isRateLimitedSeq st c ep ts1).1 ++
          (isRateLimitedSeq (isRateLimitedSeq st c ep ts1).2 c ep ts2).1,
         (isRateLimitedSeq (isRateLimitedSeq st c ep ts1).2 c ep ts2).2) := by
  intro ts1
  induction ts1 with
  | nil => intro ts2 st; rfl
  | cons t ts ih =>
    intro ts2 st
    simp only [List.cons_append, isRateLimitedSeq, List.append_eq, ih]

end ClaimsRL

section ClaimsRL2

open RateLimiter

/-- C1: starting from a fresh key, a sequence of `m + 1` checks all falling
inside the window opened by the first one returns `limited = false` for
calls 1..m and `limited = true` on the (m+1)-th with
`retryAfter = ceil((resetTime - now)/1000) > 0`; and a check whose record
has `now ≥ resetTime` starts a fresh window, resetting the count before
incrementing. -/
theorem rate_limit_window (st : RLState) (c : String) (ep : Option String)
    (w m t1 : Nat) (mid : List Nat) (tl : Nat)
    (hen : st.config.enabled = true)
    (hw : st.config.windowMs = w)
    (hm : st.config.maxRequests = m) (hm1 : 1 ≤ m)
    (habs : jsMapGet st.records (generateKey c ep) = none)
    (hmidlen : mid.length = m - 1)
    (hmid : ∀ t ∈ mid, t < t1 + w)
    (htl : tl < t1 + w) :
    (∃ pre lastR,
      (isRateLimitedSeq st c ep (t1 :: mid ++ [tl])).1 = pre ++ [lastR] ∧
      pre.length = m ∧
      (∀ r ∈ pre, r.limited = false) ∧
      lastR.limited = true ∧
      lastR.record.blocked = true ∧
      lastR.retryAfter = some (ceilDiv1000 (t1 + w - tl)) ∧
      0 < ceilDiv1000 (t1 + w - tl)) ∧
    (∀ (st2 : RLState) (now : Nat) (rec : RateLimitRecord),
      st2.config = st.config →
      jsMapGet st2.records (generateKey c ep) = some rec →
      rec.resetTime ≤ now →
      (isRateLimited st2 c ep now).1 = ⟨false, ⟨1, now + w, false⟩, none⟩) := by
  constructor
  · -- the windowed sequence
    have hstep1 := isRateLimited_step_none st c ep t1 hen habs (by omega)
    rw [hw] at hstep1
    set st1 : RLState := { st with records := (jsMapSet st.records
      (generateKey c ep) ⟨1, t1 + w, false⟩) } with hst1
    have hrec1 : jsMapGet st1.records (generateKey c ep) =
        some ⟨1, t1 + w, false⟩ := jsMapGet_set_self _ _ _
    have hseq := isRateLimitedSeq_allowed c ep mid st1 1 (t1 + w) hen hrec1
      hmid (by rw [hmidlen]; show 1 + (m - 1) ≤ st.config.maxRequests; omega)
    have hmcount : 1 + mid.length = m := by omega
    set st2 := (isRateLimitedSeq st1 c ep mid).2 with hst2
    have hen2 : st2.config.enabled = true := by rw [hseq.2.1]; exact hen
    have hmax2 : st2.config.maxRequests = m := by rw [hseq.2.1]; exact hm
    have hrecl : jsMapGet st2.records (generateKey c ep) =
        some ⟨m, t1 + w, false⟩ := by
      rw [hseq.2.2, hmcount]
    have hlast := isRateLimited_step_blocked st2 c ep tl m (t1 + w) hen2
      hrecl htl (by rw [hmax2]; omega)
    refine ⟨(⟨false, ⟨1, t1 + w, false⟩, none⟩ : RLCheckResult) ::
        (isRateLimitedSeq st1 c ep mid).1,
      ⟨true, ⟨m + 1, t1 + w, true⟩, some (ceilDiv1000 (t1 + w - tl))⟩,
      ?_, ?_, ?_, rfl, rfl, rfl, ?_⟩
    · show (isRateLimitedSeq st c ep (t1 :: (mid ++ [tl]))).1 = _
      simp only [isRateLimitedSeq, hstep1]
      rw [isRateLimitedSeq_append c ep mid [tl]]
      simp only [← hst1, ← hst2]
      simp only [isRateLimitedSeq, hlast]
      rfl
    · simp only [List.length_cons, isRateLimitedSeq_length, hmidlen]
      omega
    · intro r hr
      rcases List.mem_cons.mp hr with h | h
      · rw [h]
      · exact hseq.1 r h
    · show 0 < (t1 + w - tl + 999) / 1000
      omega
  · -- fresh-window reset
    intro st2 now rec hcfg hrec hexp
    have hen2 : st2.config.enabled = true := by rw [hcfg]; exact hen
    have hm2 : 1 ≤ st2.config.maxRequests := by rw [hcfg]; omega
    have := isRateLimited_step_expired st2 c ep now rec hen2 hrec hexp hm2
    rw [this]
    show (⟨false, ⟨1, now + st2.config.windowMs, false⟩, none⟩ : RLCheckResult) = _
    rw [hcfg, hw]

end ClaimsRL2

section ClaimsRL3

open RateLimiter

/-- Witness for C1: the spec's example — max 2, window 60000 ms, client
`A`, endpoint `/mcp/tools/call` — calls at 0 ms and 5 ms allowed, the call
at 10 ms limited with `retryAfter = 60`. -/
theorem rate_limit_window_witness :
    (∃ pre lastR,
      (isRateLimitedSeq ⟨⟨true, 60000, 2, false⟩, []⟩ "A"
        (some "/mcp/tools/call") (0 :: [5] ++ [10])).1 = pre ++ [lastR] ∧
      pre.length = 2 ∧
      (∀ r ∈ pre, r.limited = false) ∧
      lastR.limited = true ∧
      lastR.record.blocked = true ∧
      lastR.retryAfter = some (ceilDiv1000 (0 + 60000 - 10)) ∧
      0 < ceilDiv1000 (0 + 60000 - 10)) ∧
    (∀ (st2 : RLState) (now : Nat) (rec : RateLimitRecord),
      st2.config = (⟨⟨true, 60000, 2, false⟩, []⟩ : RLState).config →
      jsMapGet st2.records (generateKey "A" (some "/mcp/tools/call"))
        = some rec →
      rec.resetTime ≤ now →
      (isRateLimited st2 "A" (some "/mcp/tools/call") now).1 =
        ⟨false, ⟨1, now + 60000, false⟩, none⟩) :=
  rate_limit_window ⟨⟨true, 60000, 2, false⟩, []⟩ "A" (some "/mcp/tools/call")
    60000 2 0 [5] 10 rfl rfl rfl (by decide) rfl rfl (by decide) (by decide)

end ClaimsRL3

section ClaimsMcp

open Mcp

/-- `createJsonRpcError` on a present id: the `id || null` coercion maps a
falsy id (0, "", null) to `null` and keeps any other id; the payload is an
error. -/
theorem createJsonRpcError_id (i : RpcId) (code : McpErrorCode) (msg : String)
    (data : Option JVal) :
    (createJsonRpcError (some i) code msg data).id =
      (if jsFalsyId i then RpcId.null else i) ∧
    (createJsonRpcError (some i) code msg data).payload.isError = true :=
  ⟨rfl, rfl⟩

/-- A valid notification (no id) yields no response. -/
theorem processJsonRpcMessage_notification (ctx : McpCtx) (m : RpcMsg)
    (hv : m.jsonrpc = some "2.0") (hid : m.id = none) :
    processJsonRpcMessage ctx m = none := by
  unfold processJsonRpcMessage
  rw [hv, hid]
  rfl

/-- Every valid message carrying an id receives exactly one response, whose
id is the request's id — except that an error response to a request with a
falsy id (including id 0) carries id `null`. -/
theorem processJsonRpcMessage_request (ctx : McpCtx) (m : RpcMsg) (i : RpcId)
    (hv : m.jsonrpc = some "2.0") (hid : m.id = some i) :
    ∃ r, processJsonRpcMessage ctx m = some r ∧
      (r.id = i ∨ (r.payload.isError = true ∧ jsFalsyId i = true ∧
        r.id = RpcId.null)) := by
  unfold processJsonRpcMessage
  rw [hv, hid]
  simp only [bne_self_eq_false, Bool.false_eq_true, if_false]
  by_cases h1 : (m.method == some "initialize") = true
  · exact ⟨_, by rw [if_pos h1], Or.inl rfl⟩
  · rw [if_neg h1]
    by_cases h2 : (m.method == some "tools/list") = true
    · exact ⟨_, by rw [if_pos h2], Or.inl rfl⟩
    · rw [if_neg h2]
      by_cases h3 : (m.method == some "tools/call") = true
      · rw [if_pos h3]
        unfold handleCallToolMethod
        by_cases hname : (!jsTruthy (jsGetField m.params "name")) = true
        · rw [if_pos hname]
          refine ⟨_, rfl, ?_⟩
          by_cases hf : jsFalsyId i = true
          · refine Or.inr ⟨rfl, hf, ?_⟩
            show (if jsFalsyId i then RpcId.null else i) = RpcId.null
            rw [if_pos hf]
          · refine Or.inl ?_
            show (if jsFalsyId i then RpcId.null else i) = i
            rw [if_neg hf]
        · rw [if_neg hname]
          exact ⟨_, rfl, Or.inl rfl⟩
      · rw [if_neg h3]
        by_cases h4 : (m.method == some "ping") = true
        · exact ⟨_, by rw [if_pos h4], Or.inl rfl⟩
        · rw [if_neg h4]
          refine ⟨_, rfl, ?_⟩
          by_cases hf : jsFalsyId i = true
          · refine Or.inr ⟨rfl, hf, ?_⟩
            show (if jsFalsyId i then RpcId.null else i) = RpcId.null
            rw [if_pos hf]
          · refine Or.inl ?_
            show (if jsFalsyId i then RpcId.null else i) = i
            rw [if_neg hf]

/-- In a batch of valid messages, the responses are in bijection with the
id-carrying requests. -/
theorem batch_responses_length (ctx : McpCtx) (ms : List RpcMsg)
    (hall : ∀ mm ∈ ms, mm.jsonrpc = some "2.0") :
    (ms.filterMap (processJsonRpcMessage ctx)).length =
      (ms.filter (fun mm => mm.id.isSome)).length := by
  induction ms with
  | nil => rfl
  | cons m ms ih =>
    have hv := hall m (by simp)
    have hrest : ∀ mm ∈ ms, mm.jsonrpc = some "2.0" := by
      intro mm hmm
      exact hall mm (by simp [hmm])
    cases hid : m.id with
    | none =>
      rw [List.filterMap_cons, processJsonRpcMessage_notification ctx m hv hid]
      rw [List.filter_cons]
      simp only [hid, Option.isSome_none, Bool.false_eq_true, if_false]
      exact ih hrest
    | some i =>
      obtain ⟨r, hr, -⟩ := processJsonRpcMessage_request ctx m i hv hid
      rw [List.filterMap_cons, hr]
      rw [List.filter_cons]
      simp only [hid, Option.isSome_some, if_true, List.length_cons]
      rw [ih hrest]

/-- A batch of valid notifications yields the empty response array. -/
theorem batch_all_notifications (ctx : McpCtx) (ms : List RpcMsg)
    (hall : ∀ mm ∈ ms, mm.jsonrpc = some "2.0")
    (hids : ∀ mm ∈ ms, mm.id = none) :
    ms.filterMap (processJsonRpcMessage ctx) = [] := by
  induction ms with
  | nil => rfl
  | cons m ms ih =>
    rw [List.filterMap_cons, processJsonRpcMessage_notification ctx m
      (hall m (by simp)) (hids m (by simp))]
    exact ih (fun mm hmm => hall mm (by simp [hmm]))
      (fun mm hmm => hids mm (by simp [hmm]))

/-- C2 (amended): a synchronous POST of a batch of N valid messages of which
K carry an id answers with a JSON array of exactly K responses, each
correlated with its request's id — preserved verbatim on success responses,
while error responses coerce a falsy id (such as 0) to `null`; a batch of
only notifications yields the empty JSON array `[]` (status 200, a body),
and a lone notification yields a body-less 204. -/
theorem batch_id_correlation (ctx : McpCtx) (ms : List RpcMsg)
    (hall : ∀ mm ∈ ms, mm.jsonrpc = some "2.0") :
    handleHttpPost ctx true (some (.batch ms)) =
      .json (.arr (ms.filterMap (processJsonRpcMessage ctx))) 200 ∧
    (ms.filterMap (processJsonRpcMessage ctx)).length =
      (ms.filter (fun mm => mm.id.isSome)).length ∧
    (∀ mm ∈ ms, ∀ i : RpcId, mm.id = some i →
      ∃ r, processJsonRpcMessage ctx mm = some r ∧
        (r.id = i ∨ (r.payload.isError = true ∧ jsFalsyId i = true ∧
          r.id = RpcId.null))) ∧
    ((∀ mm ∈ ms, mm.id = none) →
      handleHttpPost ctx true (some (.batch ms)) = .json (.arr []) 200) ∧
    (∀ mm : RpcMsg, mm.jsonrpc = some "2.0" → mm.id = none →
      handleHttpPost ctx true (some (.single mm)) = .noContent) := by
  refine ⟨rfl, batch_responses_length ctx ms hall, ?_, ?_, ?_⟩
  · intro mm hmm i hid
    exact processJsonRpcMessage_request ctx mm i (hall mm hmm) hid
  · intro hids
    show HttpOut.json (.arr (ms.filterMap (processJsonRpcMessage ctx))) 200 = _
    rw [batch_all_notifications ctx ms hall hids]
  · intro mm hv hid
    show (match processJsonRpcMessage ctx mm with
      | none => HttpOut.noContent
      | some r => HttpOut.json (.one r) 200) = HttpOut.noContent
    rw [processJsonRpcMessage_notification ctx mm hv hid]

end ClaimsMcp

section ClaimsMcp2

open Mcp

/-- A concrete handler context: trivial registry, fixed session and clock. -/
def wCtx : Mcp.McpCtx :=
  ⟨"sess-1", "2026-01-01T00:00:00.000Z", none, none, [],
   fun _ _ => ⟨true, none, none, none⟩, fun _ => ""⟩

/-- C2 counterexample: (i) a batch holding one valid notification is
answered with the JSON body `[]` (status 200) — a response body — not with
an absent body; (ii) a valid request with id 0 and an unknown method is
answered with an error response whose id is `null`, not 0: the id is not
preserved. -/
theorem batch_id_correlation_counterexample :
    handleHttpPost wCtx true (some (.batch
      [⟨some "2.0", none, some "notifications/initialized", none⟩])) =
      .json (.arr []) 200 ∧
    handleHttpPost wCtx true (some (.batch
      [⟨some "2.0", none, some "notifications/initialized", none⟩])) ≠
      .noContent ∧
    (processJsonRpcMessage wCtx
      ⟨some "2.0", some (.num 0), some "no/such", none⟩).map RpcResponse.id =
      some RpcId.null ∧
    RpcId.null ≠ RpcId.num 0 := by
  refine ⟨rfl, ?_, rfl, by decide⟩
  intro h
  rw [show handleHttpPost wCtx true (some (.batch
    [⟨some "2.0", none, some "notifications/initialized", none⟩])) =
    .json (.arr []) 200 from rfl] at h
  simp at h

/-- Witness for C2 (amended): a two-message batch — a ping with id 1 and a
notification — yields exactly one response, correlated by id 1. -/
theorem batch_id_correlation_witness :
    (∀ mm ∈ [(⟨some "2.0", some (.num 1), some "ping", none⟩ : RpcMsg),
        ⟨some "2.0", none, some "notifications/initialized", none⟩],
      mm.jsonrpc = some "2.0") ∧
    ((([(⟨some "2.0", some (.num 1), some "ping", none⟩ : RpcMsg),
        ⟨some "2.0", none, some "notifications/initialized", none⟩]).filterMap
          (processJsonRpcMessage wCtx)).length =
      (([(⟨some "2.0", some (.num 1), some "ping", none⟩ : RpcMsg),
        ⟨some "2.0", none, some "notifications/initialized", none⟩]).filter
          (fun mm => mm.id.isSome)).length) ∧
    (∀ mm ∈ [(⟨some "2.0", some (.num 1), some "ping", none⟩ : RpcMsg),
        ⟨some "2.0", none, some "notifications/initialized", none⟩],
      ∀ i : RpcId, mm.id = some i →
      ∃ r, processJsonRpcMessage wCtx mm = some r ∧
        (r.id = i ∨ (r.payload.isError = true ∧ jsFalsyId i = true ∧
          r.id = RpcId.null))) :=
  ⟨by decide,
   (batch_id_correlation wCtx
     [⟨some "2.0", some (.num 1), some "ping", none⟩,
      ⟨some "2.0", none, some "notifications/initialized", none⟩]
     (by decide)).2.1,
   (batch_id_correlation wCtx
     [⟨some "2.0", some (.num 1), some "ping", none⟩,
      ⟨some "2.0", none, some "notifications/initialized", none⟩]
     (by decide)).2.2.1⟩

end ClaimsMcp2

section ClaimsSM

open SessionMgr

/-- `jsMapSet` grows the table by at most one entry. -/
theorem jsMapSet_length {β : Type} (m : List (String × β)) (k : String)
    (v : β) : (jsMapSet m k v).length ≤ m.length + 1 := by
  unfold jsMapSet
  split
  · simp
  · simp

/-- `jsMapSet` of an absent key appends the entry. -/
theorem jsMapSet_append_of_absent {β : Type} (m : List (String × β))
    (k : String) (v : β) (h : m.all (fun p => p.1 != k) = true) :
    jsMapSet m k v = m ++ [(k, v)] := by
  unfold jsMapSet
  have hfind : m.find? (fun p => p.1 == k) = none := by
    rw [List.find?_eq_none]
    intro p hp
    have := List.all_eq_true.mp h p hp
    simpa using this
  rw [hfind]
  rfl

/-- Removing a batch of sessions one by one is a filter by their ids. -/
theorem foldl_remove_eq_filter (vs : List (String × SessionInfo)) :
    ∀ (st : SMState),
      (vs.foldl (fun s v => removeSession s v.1) st).sessions =
        st.sessions.filter (fun p => vs.all (fun v => p.1 != v.1)) ∧
      (vs.foldl (fun s v => removeSession s v.1) st).lastCleanup =
        st.lastCleanup := by
  induction vs with
  | nil =>
    intro st
    constructor
    · simp
    · rfl
  | cons v vs ih =>
    intro st
    rw [List.foldl_cons]
    rcases ih (removeSession st v.1) with ⟨h1, h2⟩
    constructor
    · rw [h1]
      show (jsMapDelete st.sessions v.1).filter _ = _
      unfold jsMapDelete
      rw [List.filter_filter]
      apply List.filter_congr
      intro p hp
      simp [List.all_cons, Bool.and_comm]
    · rw [h2]
      rfl

/-- `cleanupExpiredSessions` only removes entries. -/
theorem cleanupExpired_sublist (st : SMState) (now : Nat) :
    (cleanupExpiredSessions st now).sessions.Sublist st.sessions := by
  unfold cleanupExpiredSessions
  split
  · exact List.Sublist.refl _
  · rw [(foldl_remove_eq_filter _ _).1]
    exact List.filter_sublist _

end ClaimsSM

section ClaimsSM2

open SessionMgr

/-- What `cleanupOldestSessions` does to a table with distinct ids and at
least `k` entries: it removes exactly the first `k` sessions in
creation-time order — every survivor was created no earlier than every
evicted session — leaving `length - k` entries with ids still distinct. -/
theorem cleanupOldest_spec (st : SMState) (k : Nat)
    (hk : k ≤ st.sessions.length)
    (hnd : (st.sessions.map Prod.fst).Nodup) :
    (cleanupOldestSessions st k).sessions =
      st.sessions.filter (fun p =>
        ((List.insertionSort byCreated st.sessions).take k).all
          (fun v => p.1 != v.1)) ∧
    (cleanupOldestSessions st k).sessions.length = st.sessions.length - k ∧
    ((List.insertionSort byCreated st.sessions).take k).length = k ∧
    (∀ v ∈ (List.insertionSort byCreated st.sessions).take k,
      ∀ p ∈ (cleanupOldestSessions st k).sessions,
        v.2.createdAt ≤ p.2.createdAt) ∧
    ((cleanupOldestSessions st k).sessions.map Prod.fst).Nodup ∧
    (cleanupOldestSessions st k).lastCleanup = st.lastCleanup := by
  have hperm : List.Perm (List.insertionSort byCreated st.sessions)
      st.sessions :=
    List.perm_insertionSort byCreated st.sessions
  have hsorted : List.Sorted byCreated
      (List.insertionSort byCreated st.sessions) :=
    List.sorted_insertionSort byCreated st.sessions
  have hsplit : (List.insertionSort byCreated st.sessions).take k ++
      (List.insertionSort byCreated st.sessions).drop k =
      List.insertionSort byCreated st.sessions := List.take_append_drop _ _
  have hlen_sorted : (List.insertionSort byCreated st.sessions).length =
      st.sessions.length := hperm.length_eq
  have hviclen : ((List.insertionSort byCreated st.sessions).take k).length
      = k := by
    rw [List.length_take]
    omega
  have hfoldl := foldl_remove_eq_filter
    ((List.insertionSort byCreated st.sessions).take k) st
  have hfilterform : (cleanupOldestSessions st k).sessions =
      st.sessions.filter (fun p =>
        ((List.insertionSort byCreated st.sessions).take k).all
          (fun v => p.1 != v.1)) := hfoldl.1
  have hndsorted : ((List.insertionSort byCreated st.sessions).map
      Prod.fst).Nodup := ((hperm.map Prod.fst).nodup_iff).mpr hnd
  have hnd_split : (((List.insertionSort byCreated st.sessions).take k).map
        Prod.fst).Nodup ∧
      (((List.insertionSort byCreated st.sessions).drop k).map
        Prod.fst).Nodup ∧
      List.Disjoint (((List.insertionSort byCreated st.sessions).take k).map
        Prod.fst) (((List.insertionSort byCreated st.sessions).drop k).map
        Prod.fst) := by
    rw [← hsplit, List.map_append] at hndsorted
    exact List.nodup_append.mp hndsorted
  have hvic_filter : ((List.insertionSort byCreated st.sessions).take k).filter
      (fun p => ((List.insertionSort byCreated st.sessions).take k).all
        (fun v => p.1 != v.1)) = [] := by
    rw [List.filter_eq_nil_iff]
    intro v hv hall
    have := List.all_eq_true.mp hall v hv
    simp at this
  have hrest_filter : ((List.insertionSort byCreated st.sessions).drop k).filter
      (fun p => ((List.insertionSort byCreated st.sessions).take k).all
        (fun v => p.1 != v.1)) =
      (List.insertionSort byCreated st.sessions).drop k := by
    rw [List.filter_eq_self]
    intro p hp
    rw [List.all_eq_true]
    intro u hu
    have hne : p.1 ≠ u.1 := by
      intro heq
      exact hnd_split.2.2 (List.mem_map_of_mem Prod.fst hu)
        (heq ▸ List.mem_map_of_mem Prod.fst hp)
    simpa using hne
  have hsplitfilter : ∀ P : (String × SessionInfo) → Bool,
      ((List.insertionSort byCreated st.sessions).take k).filter P = [] →
      ((List.insertionSort byCreated st.sessions).drop k).filter P =
        (List.insertionSort byCreated st.sessions).drop k →
      (List.insertionSort byCreated st.sessions).filter P =
        (List.insertionSort byCreated st.sessions).drop k := by
    intro P h1 h2
    conv_lhs => rw [← hsplit]
    rw [List.filter_append, h1, h2, List.nil_append]
  have hsorted_filter : (List.insertionSort byCreated st.sessions).filter
      (fun p => ((List.insertionSort byCreated st.sessions).take k).all
        (fun v => p.1 != v.1)) =
      (List.insertionSort byCreated st.sessions).drop k :=
    hsplitfilter _ hvic_filter hrest_filter
  have hlen : (cleanupOldestSessions st k).sessions.length =
      st.sessions.length - k := by
    rw [hfilterform]
    have hpf := hperm.filter (fun p =>
      ((List.insertionSort byCreated st.sessions).take k).all
        (fun v => p.1 != v.1))
    rw [← hpf.length_eq, hsorted_filter, List.length_drop, hlen_sorted]
  have hmem_rest : ∀ p ∈ (cleanupOldestSessions st k).sessions,
      p ∈ (List.insertionSort byCreated st.sessions).drop k := by
    intro p hp
    rw [hfilterform, List.mem_filter] at hp
    rcases hp with ⟨hpmem, hpall⟩
    have hpsorted : p ∈ List.insertionSort byCreated st.sessions :=
      hperm.mem_iff.mpr hpmem
    rw [← hsplit, List.mem_append] at hpsorted
    rcases hpsorted with hvic | hrest
    · exfalso
      have := List.all_eq_true.mp hpall p hvic
      simp at this
    · exact hrest
  refine ⟨hfilterform, hlen, hviclen, ?_, ?_, hfoldl.2⟩
  · intro v hv p hp
    have hrest := hmem_rest p hp
    have hpw : List.Pairwise byCreated
        ((List.insertionSort byCreated st.sessions).take k ++
         (List.insertionSort byCreated st.sessions).drop k) := by
      rw [hsplit]
      exact hsorted
    exact (List.pairwise_append.mp hpw).2.2 v hv p hrest
  · rw [hfilterform]
    exact hnd.sublist ((List.filter_sublist _).map Prod.fst)

end ClaimsSM2

section ClaimsSM3

open SessionMgr

/-- The rate-limited sweep is a no-op inside the cleanup interval. -/
theorem cleanupExpired_noop (st : SMState) (now : Nat)
    (h : now - st.lastCleanup < CLEANUP_INTERVAL) :
    cleanupExpiredSessions st now = st := by
  unfold cleanupExpiredSessions
  rw [if_pos h]

/-- C4: with distinct session ids and a fresh new id, (a) a create/add never
takes the table beyond the capacity of 100; (b) when the table is exactly at
capacity (and the expiry sweep is inside its rate-limit interval, so it does
not interfere), the create evicts exactly the 10 oldest sessions by creation
time — every survivor was created no earlier than every evicted session —
and then admits the new session, leaving 91 entries. -/
theorem session_capacity (st : SMState) (id : String) (now : Nat)
    (hnd : (st.sessions.map Prod.fst).Nodup)
    (hfresh : st.sessions.all (fun p => p.1 != id) = true) :
    (st.sessions.length ≤ 100 →
      (createAndAddSession st id now).sessions.length ≤ 100) ∧
    (now - st.lastCleanup < 60000 → st.sessions.length = 100 →
      ((createSession st now).sessions =
         st.sessions.filter (fun p =>
           ((List.insertionSort byCreated st.sessions).take 10).all
             (fun v => p.1 != v.1)) ∧
       ((List.insertionSort byCreated st.sessions).take 10).length = 10 ∧
       (∀ v ∈ (List.insertionSort byCreated st.sessions).take 10,
         ∀ p ∈ (createSession st now).sessions,
           v.2.createdAt ≤ p.2.createdAt) ∧
       (createAndAddSession st id now).sessions =
         (createSession st now).sessions ++
           [(id, SessionInfo.mk now now false)] ∧
       (createAndAddSession st id now).sessions.length = 91)) := by
  have hsub1 : (cleanupExpiredSessions st now).sessions.Sublist st.sessions :=
    cleanupExpired_sublist st now
  have hnd1 : ((cleanupExpiredSessions st now).sessions.map Prod.fst).Nodup :=
    hnd.sublist (hsub1.map Prod.fst)
  constructor
  · -- capacity invariant
    intro hcap
    have hcreate : createSession st now =
        (if MAX_SESSIONS ≤ (cleanupExpiredSessions st now).sessions.length
         then cleanupOldestSessions (cleanupExpiredSessions st now)
           (MAX_SESSIONS / 10)
         else cleanupExpiredSessions st now) := rfl
    have hle : (createSession st now).sessions.length ≤ 99 := by
      rw [hcreate]
      split
      · rename_i hfull
        have hlen1 : (cleanupExpiredSessions st now).sessions.length = 100 := by
          have := hsub1.length_le
          simp only [MAX_SESSIONS] at hfull
          omega
        have hspec := cleanupOldest_spec (cleanupExpiredSessions st now)
          (MAX_SESSIONS / 10) (by simp only [MAX_SESSIONS]; omega) hnd1
        rw [hspec.2.1, hlen1]
        simp only [MAX_SESSIONS]
        omega
      · rename_i hfull
        have := hsub1.length_le
        simp only [MAX_SESSIONS] at hfull
        omega
    calc (createAndAddSession st id now).sessions.length
        ≤ (createSession st now).sessions.length + 1 :=
          jsMapSet_length _ _ _
      _ ≤ 100 := by omega
  · -- at-capacity eviction
    intro hnoop hlen100
    have hnoop' : cleanupExpiredSessions st now = st :=
      cleanupExpired_noop st now (by simpa [CLEANUP_INTERVAL] using hnoop)
    have hcs_eq : createSession st now = cleanupOldestSessions st 10 := by
      have hcreate : createSession st now =
          (if MAX_SESSIONS ≤ (cleanupExpiredSessions st now).sessions.length
           then cleanupOldestSessions (cleanupExpiredSessions st now)
             (MAX_SESSIONS / 10)
           else cleanupExpiredSessions st now) := rfl
      rw [hcreate, hnoop']
      rw [if_pos (by simp only [MAX_SESSIONS]; omega)]
      norm_num [MAX_SESSIONS]
    have hspec := cleanupOldest_spec st 10 (by omega) hnd
    have hsurv_sub : (cleanupOldestSessions st 10).sessions.Sublist
        st.sessions := by
      rw [hspec.1]
      exact List.filter_sublist _
    have hfresh' : (createSession st now).sessions.all
        (fun p => p.1 != id) = true := by
      rw [hcs_eq, List.all_eq_true]
      rw [List.all_eq_true] at hfresh
      intro p hp
      exact hfresh p (hsurv_sub.subset hp)
    have hadd : (createAndAddSession st id now).sessions =
        (createSession st now).sessions ++
          [(id, SessionInfo.mk now now false)] := by
      show jsMapSet (createSession st now).sessions id
        (SessionInfo.mk now now false) = _
      exact jsMapSet_append_of_absent _ _ _ hfresh'
    refine ⟨by rw [hcs_eq]; exact hspec.1, hspec.2.2.1, ?_, hadd, ?_⟩
    · intro v hv p hp
      rw [hcs_eq] at hp
      exact hspec.2.2.2.1 v hv p hp
    · rw [hadd, List.length_append, hcs_eq, hspec.2.1, hlen100]
      simp

/-- A session table at full capacity: 100 sessions with distinct ids. -/
def wSessSt : SessionMgr.SMState :=
  ⟨(List.range 100).map
    (fun i => (toString i, SessionMgr.SessionInfo.mk i i false)), 0⟩

/-- Witness for C4 on a table at capacity (100 distinct sessions) with a
fresh id, at a time inside the cleanup interval. -/
theorem session_capacity_witness :
    (wSessSt.sessions.length ≤ 100 →
      (createAndAddSession wSessSt "s-new" 5).sessions.length ≤ 100) ∧
    (5 - wSessSt.lastCleanup < 60000 →
      wSessSt.sessions.length = 100 →
      ((createSession wSessSt 5).sessions =
         wSessSt.sessions.filter (fun p =>
           ((List.insertionSort byCreated wSessSt.sessions).take 10).all
             (fun v => p.1 != v.1)) ∧
       ((List.insertionSort byCreated wSessSt.sessions).take 10).length
         = 10 ∧
       (∀ v ∈ (List.insertionSort byCreated wSessSt.sessions).take 10,
         ∀ p ∈ (createSession wSessSt 5).sessions,
           v.2.createdAt ≤ p.2.createdAt) ∧
       (createAndAddSession wSessSt "s-new" 5).sessions =
         (createSession wSessSt 5).sessions ++
           [("s-new", SessionInfo.mk 5 5 false)] ∧
       (createAndAddSession wSessSt "s-new" 5).sessions.length = 91)) :=
  session_capacity wSessSt "s-new" 5 (by decide) (by decide)

end ClaimsSM3
